import Mathlib

/-!
Shallow embedding of the todo application in `src/main.rs` (structs `Task`,
`User`, `TodoApp` and the methods of `impl TodoApp`), together with theorems
settling the specification claims about it.

Modelling choices:
* Rust `HashMap<K, V>` is modelled as an association list `List (K × V)`;
  `insert` replaces the binding for the key, `get`/`get_mut` is first-match
  lookup, `remove` drops the binding.  Iteration order of a `HashMap` is
  unspecified, so properties about the contents of a map are stated through
  `lookupKey` and membership.
* `u32` arithmetic on `next_task_id` is modelled on `Nat` with an explicit
  `% U32` at the one place the source adds (`next_task_id += 1`, and
  `max + 1` in `load_tasks`), matching the wrapping semantics of a release
  build.  (A debug build panics at the same inputs; either way the source
  deviates from the spec exactly where the modulus matters.)
* `DateTime<Utc>` is modelled as `DateTime`: epoch seconds plus a
  sub-second nanosecond component, as `Utc::now()` produces; `Utc::now()`
  is an explicit `now` argument.  The serde `ts_seconds` representation
  stores only the whole seconds, so serialization truncates the sub-second
  component (`tsSecondsStore`) and deserialized timestamps have a zero
  sub-second component.
* The persistence gateway writes whole snapshots.  A snapshot file is
  modelled as `Option TasksFile` / `Option UsersFile`: `none` is an absent
  file (`io::ErrorKind::NotFound`), `TasksFile.parsable m` is a file whose
  bytes deserialize to the mapping `m` (serde_json's encoding is abstracted
  as the deserialized mapping, so `save_tasks` applies the `ts_seconds`
  truncation to each task's `created_at`), and `TasksFile.garbage` is a
  file whose bytes fail to deserialize.
* Rust `Result<(), &'static str>` is `Except String Unit`; a mutating method
  on `&mut self` returns the pair (result, post-state).  The error strings
  are the literals of the source, so the spec's error kinds read:
  `NotAuthenticated` = "Not logged in", `DuplicateAccount` = "Username
  already exists", `InvalidCredentials` = "Invalid username or password",
  `TaskNotFound` = "Task not found", `NotAuthorized` = "Not authorized to
  modify this task" / "Not authorized to delete this task".
-/

namespace Todo

/-- `chrono::DateTime<Utc>`: epoch seconds plus a sub-second nanosecond
component.  `Utc::now()` produces values with a non-zero sub-second
component; the `ts_seconds` serde representation keeps only `secs`. -/
structure DateTime where
  secs : Int
  nanos : Nat
deriving Repr, DecidableEq

/-- `struct Task` of src/main.rs. -/
structure Task where
  id : Nat
  title : String
  description : String
  completed : Bool
  created_at : DateTime
  user_id : String
deriving Repr, DecidableEq

/-- The effect of a `ts_seconds` serialize/deserialize round trip on a task:
`created_at` is written as `timestamp()` (whole seconds) and read back with a
zero sub-second component; every other field is preserved exactly. -/
def tsSecondsStore (t : Task) : Task :=
  { t with created_at := ⟨t.created_at.secs, 0⟩ }

/-- `struct User` of src/main.rs. -/
structure User where
  username : String
  password : String
deriving Repr, DecidableEq

/-- `struct TodoApp` of src/main.rs. -/
structure TodoApp where
  tasks : List (Nat × Task)
  users : List (String × User)
  current_user : Option String
  next_task_id : Nat
deriving Repr, DecidableEq

/-- The modulus of `u32` arithmetic. -/
def U32 : Nat := 4294967296

/-- First-match association-list lookup: `HashMap::get` / `contains_key`. -/
def lookupKey {α β : Type} [DecidableEq α] (k : α) : List (α × β) → Option β
  | [] => none
  | p :: ps => if p.1 = k then some p.2 else lookupKey k ps

/-- `HashMap::remove`: drop every binding of the key. -/
def eraseKey {α β : Type} [DecidableEq α] (k : α) : List (α × β) → List (α × β)
  | [] => []
  | p :: ps => if p.1 = k then eraseKey k ps else p :: eraseKey k ps

/-- `HashMap::insert`: bind the key to the value, replacing any old binding. -/
def insertKey {α β : Type} [DecidableEq α] (k : α) (v : β) (m : List (α × β)) :
    List (α × β) :=
  (k, v) :: eraseKey k m

/-- In-place mutation through `HashMap::get_mut`: apply `f` at the key. -/
def updateKey {α β : Type} [DecidableEq α] (k : α) (f : β → β) (m : List (α × β)) :
    List (α × β) :=
  m.map (fun p => if p.1 = k then (p.1, f p.2) else p)

/-- `TodoApp::new`. -/
def TodoApp.new : TodoApp := ⟨[], [], none, 1⟩

/-- `TodoApp::register` (src/main.rs lines 41-52).  The `save_users` call
performs I/O only and does not change the in-memory state. -/
def TodoApp.register (s : TodoApp) (username password : String) :
    Except String Unit × TodoApp :=
  if (lookupKey username s.users).isSome then
    (.error "Username already exists", s)
  else
    (.ok (), { s with users := insertKey username ⟨username, password⟩ s.users })

/-- `TodoApp::login` (src/main.rs lines 54-62). -/
def TodoApp.login (s : TodoApp) (username password : String) :
    Except String Unit × TodoApp :=
  match lookupKey username s.users with
  | some user =>
      if user.password = password then
        (.ok (), { s with current_user := some username })
      else
        (.error "Invalid username or password", s)
  | none => (.error "Invalid username or password", s)

/-- `TodoApp::add_task` (src/main.rs lines 64-80).  `now` stands for
`Utc::now()`.  The increment of the `u32` counter wraps at `U32`. -/
def TodoApp.add_task (s : TodoApp) (title description : String) (now : DateTime) :
    Except String Unit × TodoApp :=
  match s.current_user with
  | none => (.error "Not logged in", s)
  | some user_id =>
      let task : Task := ⟨s.next_task_id, title, description, false, now, user_id⟩
      (.ok (), { s with
        tasks := insertKey s.next_task_id task s.tasks,
        next_task_id := (s.next_task_id + 1) % U32 })

/-- `TodoApp::complete_task` (src/main.rs lines 82-93). -/
def TodoApp.complete_task (s : TodoApp) (task_id : Nat) :
    Except String Unit × TodoApp :=
  match s.current_user with
  | none => (.error "Not logged in", s)
  | some user_id =>
      match lookupKey task_id s.tasks with
      | none => (.error "Task not found", s)
      | some task =>
          if task.user_id ≠ user_id then
            (.error "Not authorized to modify this task", s)
          else
            (.ok (), { s with
              tasks := updateKey task_id (fun t => { t with completed := true }) s.tasks })

/-- `TodoApp::edit_task` (src/main.rs lines 95-107). -/
def TodoApp.edit_task (s : TodoApp) (task_id : Nat) (title description : String) :
    Except String Unit × TodoApp :=
  match s.current_user with
  | none => (.error "Not logged in", s)
  | some user_id =>
      match lookupKey task_id s.tasks with
      | none => (.error "Task not found", s)
      | some task =>
          if task.user_id ≠ user_id then
            (.error "Not authorized to modify this task", s)
          else
            (.ok (), { s with
              tasks := updateKey task_id
                (fun t => { t with title := title, description := description }) s.tasks })

/-- `TodoApp::delete_task` (src/main.rs lines 109-120). -/
def TodoApp.delete_task (s : TodoApp) (task_id : Nat) :
    Except String Unit × TodoApp :=
  match s.current_user with
  | none => (.error "Not logged in", s)
  | some user_id =>
      match lookupKey task_id s.tasks with
      | none => (.error "Task not found", s)
      | some task =>
          if task.user_id ≠ user_id then
            (.error "Not authorized to delete this task", s)
          else
            (.ok (), { s with tasks := eraseKey task_id s.tasks })

/-- `TodoApp::list_tasks` (src/main.rs lines 122-128): the values of the
task map whose `user_id` equals the current user. -/
def TodoApp.list_tasks (s : TodoApp) : Except String (List Task) :=
  match s.current_user with
  | none => .error "Not logged in"
  | some user_id => .ok ((s.tasks.map Prod.snd).filter (fun t => decide (t.user_id = user_id)))

/-- Content of the file "tasks.json": bytes that either deserialize to a task
mapping or fail to parse.  serde_json's encoding is abstracted as the
deserialized mapping; the `ts_seconds` truncation of `created_at` is applied
by `save_tasks` when the file is written. -/
inductive TasksFile where
  | parsable (entries : List (Nat × Task))
  | garbage
deriving Repr, DecidableEq

/-- Content of the file "users.json", in the same style as `TasksFile`. -/
inductive UsersFile where
  | parsable (entries : List (String × User))
  | garbage
deriving Repr, DecidableEq

/-- `TodoApp::save_tasks` (src/main.rs lines 130-134): serialize the whole
task map.  The file holds what its bytes deserialize to, so each task's
`created_at` goes through the `ts_seconds` truncation. -/
def TodoApp.save_tasks (s : TodoApp) : TasksFile :=
  .parsable (List.map (fun p => (p.1, tsSecondsStore p.2)) s.tasks)

/-- `TodoApp::save_users` (src/main.rs lines 148-152). -/
def TodoApp.save_users (s : TodoApp) : UsersFile := .parsable s.users

/-- `self.tasks.keys().max()` of src/main.rs line 140. -/
def keysMax : List (Nat × Task) → Option Nat
  | [] => none
  | p :: ps =>
      match keysMax ps with
      | none => some p.1
      | some m => some (Nat.max p.1 m)

/-- `TodoApp::load_tasks` (src/main.rs lines 136-146): an absent file is
success without touching the state; a parse failure is an error; on success
the task map is replaced and `next_task_id` is recomputed as
`keys().max().map_or(1, |max| max + 1)` (the `u32` addition wraps at `U32`). -/
def TodoApp.load_tasks (s : TodoApp) (file : Option TasksFile) :
    Except String TodoApp :=
  match file with
  | none => .ok s
  | some .garbage => .error "deserialization error"
  | some (.parsable m) =>
      .ok { s with
        tasks := m,
        next_task_id :=
          match keysMax m with
          | none => 1
          | some mx => (mx + 1) % U32 }

/-- `TodoApp::load_users` (src/main.rs lines 154-163). -/
def TodoApp.load_users (s : TodoApp) (file : Option UsersFile) :
    Except String TodoApp :=
  match file with
  | none => .ok s
  | some .garbage => .error "deserialization error"
  | some (.parsable m) => .ok { s with users := m }

/-- The startup sequence of `main` (src/main.rs lines 166-169):
`TodoApp::new`, then `load_tasks().unwrap()`, then `load_users().unwrap()`.
An `Except.error` result models the fatal `unwrap` panic. -/
def startup (tasksFile : Option TasksFile) (usersFile : Option UsersFile) :
    Except String TodoApp :=
  match TodoApp.new.load_tasks tasksFile with
  | .error e => .error e
  | .ok s => s.load_users usersFile

/-- The task-map invariant of claim C9: `next_task_id` fits in `u32`, every
binding's key equals the task's `id` field, and every key is strictly below
`next_task_id`. -/
def TaskInv (s : TodoApp) : Prop :=
  s.next_task_id < U32 ∧ ∀ p ∈ s.tasks, p.2.id = p.1 ∧ p.1 < s.next_task_id

instance (s : TodoApp) : Decidable (TaskInv s) := by
  unfold TaskInv; infer_instance

/-! ### Concrete states used by witnesses and counterexamples -/

/-- A state with one registered account "alice"/"pw". -/
def regState : TodoApp := ⟨[], [("alice", ⟨"alice", "pw"⟩)], none, 1⟩

/-- A state with account "alice"/"right" and an already active account
"prev". -/
def loginState : TodoApp := ⟨[], [("alice", ⟨"alice", "right"⟩)], some "prev", 1⟩

/-- A task owned by "alice". -/
def taskA : Task := ⟨1, "a", "da", false, ⟨10, 0⟩, "alice"⟩

/-- A task owned by "bob". -/
def taskB : Task := ⟨2, "b", "db", true, ⟨20, 0⟩, "bob"⟩

/-- A state holding `taskA` and `taskB` with "alice" active. -/
def listState : TodoApp :=
  ⟨[(1, taskA), (2, taskB)], [("alice", ⟨"alice", "pw"⟩)], some "alice", 3⟩

/-- A state where "bob" is active but task 1 belongs to "alice". -/
def authState : TodoApp :=
  ⟨[(1, taskA)], [("bob", ⟨"bob", "pw"⟩)], some "bob", 2⟩

/-- A state where "alice" is active and owns `taskA` (id 1), next to
`taskB` (id 2). -/
def editState : TodoApp :=
  ⟨[(1, taskA), (2, taskB)], [("alice", ⟨"alice", "pw"⟩)], some "alice", 3⟩

/-- An authenticated state whose counter is at 1. -/
def addStateA : TodoApp := ⟨[], [("a", ⟨"a", "pw"⟩)], some "a", 1⟩

/-- An authenticated state whose counter is at 5. -/
def addStateB : TodoApp := ⟨[], [("a", ⟨"a", "pw"⟩)], some "a", 5⟩

/-- A task carrying the largest `u32` id, `4294967295`. -/
def maxTask : Task := ⟨4294967295, "t", "d", false, ⟨0, 0⟩, "a"⟩

/-- A state whose task mapping holds `maxTask` under key `4294967295`. -/
def maxState : TodoApp := ⟨[(4294967295, maxTask)], [], none, 1⟩

/-- A task whose `created_at` carries a sub-second component, as `Utc::now()`
produces in-process (here 10 s + 500000000 ns). -/
def fracTask : Task := ⟨1, "t", "d", false, ⟨10, 500000000⟩, "alice"⟩

/-- A state holding `fracTask`. -/
def fracState : TodoApp := ⟨[(1, fracTask)], [], none, 2⟩

/-- An authenticated empty-task state whose counter sits at `u32::MAX`. -/
def invState : TodoApp := ⟨[], [("a", ⟨"a", "p"⟩)], some "a", 4294967295⟩

/-- A snapshot with task keys 3 and 7. -/
def loadSnapshot : List (Nat × Task) := [(3, taskA), (7, taskB)]

/-- The state produced by loading `loadSnapshot` into a fresh `TodoApp`. -/
def loadedState : TodoApp := ⟨loadSnapshot, [], none, 8⟩

/-- A saver state holding `loadSnapshot` with an arbitrary counter. -/
def rtState : TodoApp := ⟨loadSnapshot, [], none, 42⟩

/-! ### Association-list lemmas -/

theorem lookupKey_erase_ne {α β : Type} [DecidableEq α] {k k' : α}
    (m : List (α × β)) (h : k' ≠ k) :
    lookupKey k' (eraseKey k m) = lookupKey k' m := by
  induction m with
  | nil => rfl
  | cons p ps ih =>
      obtain ⟨a, b⟩ := p
      simp only [eraseKey]
      by_cases hp : a = k
      · have hk' : ¬ a = k' := by rw [hp]; intro hh; exact h hh.symm
        rw [if_pos hp, ih]
        simp only [lookupKey]
        rw [if_neg hk']
      · rw [if_neg hp]
        simp only [lookupKey]
        by_cases hp' : a = k'
        · rw [if_pos hp', if_pos hp']
        · rw [if_neg hp', if_neg hp', ih]

theorem lookupKey_insert_self {α β : Type} [DecidableEq α] (k : α) (v : β)
    (m : List (α × β)) : lookupKey k (insertKey k v m) = some v := by
  simp [insertKey, lookupKey]

theorem lookupKey_insert_ne {α β : Type} [DecidableEq α] {k k' : α} (v : β)
    (m : List (α × β)) (h : k' ≠ k) :
    lookupKey k' (insertKey k v m) = lookupKey k' m := by
  have hk : ¬ k = k' := fun hh => h hh.symm
  rw [insertKey]
  simp only [lookupKey]
  rw [if_neg hk]
  exact lookupKey_erase_ne m h

theorem lookupKey_update_self {α β : Type} [DecidableEq α] {k : α} {v : β}
    (f : β → β) {m : List (α × β)} (h : lookupKey k m = some v) :
    lookupKey k (updateKey k f m) = some (f v) := by
  induction m with
  | nil => simp [lookupKey] at h
  | cons p ps ih =>
      obtain ⟨a, b⟩ := p
      by_cases hp : a = k
      · rw [lookupKey, if_pos hp] at h
        cases h
        simp [updateKey, lookupKey, hp]
      · rw [lookupKey, if_neg hp] at h
        simpa [updateKey, lookupKey, hp] using ih h

theorem lookupKey_update_ne {α β : Type} [DecidableEq α] {k k' : α}
    (f : β → β) (m : List (α × β)) (h : k' ≠ k) :
    lookupKey k' (updateKey k f m) = lookupKey k' m := by
  induction m with
  | nil => rfl
  | cons p ps ih =>
      obtain ⟨a, b⟩ := p
      simp only [updateKey, List.map_cons] at ih ⊢
      by_cases hp : a = k
      · have hk' : ¬ a = k' := by rw [hp]; intro hh; exact h hh.symm
        rw [if_pos hp]
        simp only [lookupKey]
        rw [if_neg hk', if_neg hk']
        exact ih
      · rw [if_neg hp]
        simp only [lookupKey]
        by_cases hp' : a = k'
        · rw [if_pos hp', if_pos hp']
        · rw [if_neg hp', if_neg hp']
          exact ih

theorem mem_eraseKey {α β : Type} [DecidableEq α] {k : α} {p : α × β}
    {m : List (α × β)} (h : p ∈ eraseKey k m) : p ∈ m := by
  induction m with
  | nil => simp [eraseKey] at h
  | cons q qs ih =>
      rw [eraseKey] at h
      by_cases hq : q.1 = k
      · rw [if_pos hq] at h
        exact List.mem_cons_of_mem _ (ih h)
      · rw [if_neg hq] at h
        rcases List.mem_cons.mp h with h | h
        · exact h ▸ List.mem_cons_self _ _
        · exact List.mem_cons_of_mem _ (ih h)

theorem mem_updateKey {α β : Type} [DecidableEq α] {k : α} (f : β → β)
    {p : α × β} {m : List (α × β)} (h : p ∈ updateKey k f m) :
    ∃ q ∈ m, p = if q.1 = k then (q.1, f q.2) else q := by
  rcases List.mem_map.mp h with ⟨q, hq, hpq⟩
  exact ⟨q, hq, hpq.symm⟩

theorem lookupKey_mem {α β : Type} [DecidableEq α] {k : α} {v : β}
    {m : List (α × β)} (h : lookupKey k m = some v) : (k, v) ∈ m := by
  induction m with
  | nil => simp [lookupKey] at h
  | cons p ps ih =>
      by_cases hp : p.1 = k
      · rw [lookupKey, if_pos hp] at h
        cases h
        exact hp ▸ List.mem_cons_self _ _
      · rw [lookupKey, if_neg hp] at h
        exact List.mem_cons_of_mem _ (ih h)

/-! ### `keysMax` lemmas -/

theorem keysMax_eq_none_iff (m : List (Nat × Task)) :
    keysMax m = none ↔ m = [] := by
  cases m with
  | nil => simp [keysMax]
  | cons p ps =>
      simp only [keysMax]
      cases keysMax ps <;> simp

theorem keysMax_le {m : List (Nat × Task)} {mx : Nat}
    (h : keysMax m = some mx) : ∀ p ∈ m, p.1 ≤ mx := by
  induction m generalizing mx with
  | nil => simp [keysMax] at h
  | cons p ps ih =>
      intro q hq
      rw [keysMax] at h
      rcases List.mem_cons.mp hq with hq | hq
      · subst hq
        cases hps : keysMax ps with
        | none => rw [hps] at h; cases h; exact le_refl _
        | some m' => rw [hps] at h; cases h; exact Nat.le_max_left _ _
      · cases hps : keysMax ps with
        | none =>
            rw [(keysMax_eq_none_iff ps).mp hps] at hq
            simp at hq
        | some m' =>
            rw [hps] at h
            cases h
            exact le_trans (ih hps q hq) (Nat.le_max_right _ _)

theorem keysMax_mem {m : List (Nat × Task)} {mx : Nat}
    (h : keysMax m = some mx) : ∃ p ∈ m, p.1 = mx := by
  induction m generalizing mx with
  | nil => simp [keysMax] at h
  | cons p ps ih =>
      rw [keysMax] at h
      cases hps : keysMax ps with
      | none =>
          rw [hps] at h
          cases h
          exact ⟨p, List.mem_cons_self _ _, rfl⟩
      | some m' =>
          rw [hps] at h
          cases h
          rcases Nat.le_total p.1 m' with hle | hle
          · rcases ih hps with ⟨q, hq, hq1⟩
            exact ⟨q, List.mem_cons_of_mem _ hq,
              by rw [hq1]; exact (Nat.max_eq_right hle).symm⟩
          · exact ⟨p, List.mem_cons_self _ _, (Nat.max_eq_left hle).symm⟩

/-! ### `ts_seconds` truncation lemmas -/

theorem tsSecondsStore_eq_self {t : Task} (h : t.created_at.nanos = 0) :
    tsSecondsStore t = t := by
  cases t with
  | mk i ti de co ca us =>
      cases ca with
      | mk secs nanos =>
          simp only at h
          subst h
          rfl

theorem map_store_eq_self {m : List (Nat × Task)}
    (hn : ∀ p ∈ m, p.2.created_at.nanos = 0) :
    List.map (fun p => (p.1, tsSecondsStore p.2)) m = m := by
  induction m with
  | nil => rfl
  | cons p ps ih =>
      rw [List.map_cons, ih (fun q hq => hn q (List.mem_cons_of_mem _ hq)),
        tsSecondsStore_eq_self (hn p (List.mem_cons_self _ _))]

theorem keysMax_map_store (m : List (Nat × Task)) :
    keysMax (List.map (fun p => (p.1, tsSecondsStore p.2)) m) = keysMax m := by
  induction m with
  | nil => rfl
  | cons p ps ih => simp [keysMax, ih]

/-- Loading a snapshot written by `save_tasks`: the tasks come back with
`created_at` truncated to whole seconds and the counter is recomputed from
the (unchanged) keys. -/
theorem load_save_eq (s0 s1 : TodoApp) :
    TodoApp.load_tasks s0 (some s1.save_tasks)
      = .ok { s0 with
          tasks := List.map (fun p => (p.1, tsSecondsStore p.2)) s1.tasks,
          next_task_id :=
            match keysMax s1.tasks with
            | none => 1
            | some mx => (mx + 1) % U32 } := by
  simp only [TodoApp.save_tasks, TodoApp.load_tasks, keysMax_map_store]

/-! ### Invariant helper lemmas -/

theorem TaskInv_of_eq {s s' : TodoApp} (h : TaskInv s)
    (ht : s'.tasks = s.tasks) (hn : s'.next_task_id = s.next_task_id) :
    TaskInv s' := by
  unfold TaskInv at h ⊢
  rw [ht, hn]
  exact h

theorem TaskInv_updateKey {s : TodoApp} (hInv : TaskInv s) (id : Nat)
    (f : Task → Task) (hf : ∀ t, (f t).id = t.id) :
    TaskInv { s with tasks := updateKey id f s.tasks } := by
  refine ⟨hInv.1, ?_⟩
  intro p hp
  rcases mem_updateKey f hp with ⟨q, hq, hpq⟩
  rcases hInv.2 q hq with ⟨hid, hlt⟩
  by_cases hqk : q.1 = id
  · rw [hpq, if_pos hqk]
    exact ⟨(hf q.2).trans hid, hlt⟩
  · rw [hpq, if_neg hqk]
    exact ⟨hid, hlt⟩

theorem TaskInv_eraseKey {s : TodoApp} (hInv : TaskInv s) (id : Nat) :
    TaskInv { s with tasks := eraseKey id s.tasks } :=
  ⟨hInv.1, fun p hp => hInv.2 p (mem_eraseKey hp)⟩

theorem keysMax_next_gt {m : List (Nat × Task)} {mx : Nat}
    (hmx : keysMax m = some mx) (hb : ∀ q ∈ m, q.1 + 1 < U32) :
    ∀ q ∈ m, q.1 < (mx + 1) % U32 := by
  intro q hq
  rcases keysMax_mem hmx with ⟨p, hp, hpeq⟩
  have hlt : mx + 1 < U32 := hpeq ▸ hb p hp
  rw [Nat.mod_eq_of_lt hlt]
  exact Nat.lt_succ_of_le (keysMax_le hmx q hq)

/-! ### Claim C4: register -/

/-- Claim C4: when the username is already present in the account set,
`register` fails with `DuplicateAccount` ("Username already exists") and
leaves the account set unchanged (in particular its size); when the username
is absent, `register` inserts the new account and does not set it as the
active account. -/
theorem register_spec (s : TodoApp) (username password : String) :
    (∀ a, lookupKey username s.users = some a →
      s.register username password = (.error "Username already exists", s) ∧
      (s.register username password).2.users.length = s.users.length) ∧
    (lookupKey username s.users = none →
      (s.register username password).1 = .ok () ∧
      lookupKey username (s.register username password).2.users
        = some ⟨username, password⟩ ∧
      (s.register username password).2.current_user = s.current_user ∧
      (s.register username password).2.tasks = s.tasks ∧
      (s.register username password).2.next_task_id = s.next_task_id) := by
  constructor
  · intro a ha
    rw [TodoApp.register, if_pos (by rw [ha]; rfl)]
    exact ⟨rfl, rfl⟩
  · intro ha
    rw [TodoApp.register, if_neg (by rw [ha]; simp)]
    exact ⟨rfl, lookupKey_insert_self _ _ _, rfl, rfl, rfl⟩

/-- Witness for `register_spec` at the concrete state `regState`. -/
theorem register_spec_witness :
    regState.register "alice" "x" = (.error "Username already exists", regState) ∧
    lookupKey "bob" (regState.register "bob" "pw2").2.users = some ⟨"bob", "pw2"⟩ ∧
    (regState.register "bob" "pw2").2.current_user = regState.current_user :=
  ⟨((register_spec regState "alice" "x").1 ⟨"alice", "pw"⟩ (by decide)).1,
   ((register_spec regState "bob" "pw2").2 (by decide)).2.1,
   ((register_spec regState "bob" "pw2").2 (by decide)).2.2.1⟩

/-! ### Claim C5: login -/

/-- Claim C5: `login` fails with `InvalidCredentials` ("Invalid username or
password") exactly when the username is absent from the account set or the
stored password differs from the supplied one under exact string equality,
and the failure value is the same literal in both cases; on success it sets
the active-account slot to that username. -/
theorem login_spec (s : TodoApp) (username password : String) :
    ((s.login username password).1 = .error "Invalid username or password" ↔
      (lookupKey username s.users = none ∨
        ∃ a, lookupKey username s.users = some a ∧ a.password ≠ password)) ∧
    (∀ a, lookupKey username s.users = some a → a.password = password →
      s.login username password
        = (.ok (), { s with current_user := some username })) := by
  constructor
  · cases ha : lookupKey username s.users with
    | none => simp [TodoApp.login, ha]
    | some a =>
        by_cases hp : a.password = password
        · simp [TodoApp.login, ha, hp]
        · simp [TodoApp.login, ha, hp]
  · intro a ha hp
    simp [TodoApp.login, ha, hp]

/-- Witness for `login_spec` at the concrete state `loginState`: a wrong
password and an unknown username both produce the failure, and the right
password logs in. -/
theorem login_spec_witness :
    (loginState.login "alice" "wrong").1 = .error "Invalid username or password" ∧
    (loginState.login "nobody" "x").1 = .error "Invalid username or password" ∧
    loginState.login "alice" "right"
      = (.ok (), { loginState with current_user := some "alice" }) :=
  ⟨(login_spec loginState "alice" "wrong").1.mpr
      (Or.inr ⟨⟨"alice", "right"⟩, by decide, by decide⟩),
   (login_spec loginState "nobody" "x").1.mpr (Or.inl (by decide)),
   (login_spec loginState "alice" "right").2 ⟨"alice", "right"⟩ (by decide) rfl⟩

/-! ### Claim C10: failed login is a no-op -/

/-- Claim C10: whenever `login` fails, the entire application state — account
set, task mapping, next-id counter and active-account slot — is unchanged;
in particular a previously active account remains active. -/
theorem login_failure_frame (s : TodoApp) (username password e : String)
    (h : (s.login username password).1 = .error e) :
    (s.login username password).2 = s ∧
    (s.login username password).2.current_user = s.current_user := by
  cases ha : lookupKey username s.users with
  | none => simp [TodoApp.login, ha]
  | some a =>
      by_cases hp : a.password = password
      · rw [TodoApp.login, ha] at h
        simp [hp] at h
      · simp [TodoApp.login, ha, hp]

/-- Witness for `login_failure_frame`: the failed login of `loginState` with
a wrong password keeps "prev" active and the state intact. -/
theorem login_failure_frame_witness :
    (loginState.login "alice" "wrong").2 = loginState ∧
    (loginState.login "alice" "wrong").2.current_user = loginState.current_user :=
  login_failure_frame loginState "alice" "wrong" "Invalid username or password"
    rfl

/-! ### Claim C6: list -/

/-- Claim C6: with an active account, `list_tasks` returns exactly the tasks
whose owner equals the active account — all of the caller's tasks and no task
of any other account, in unspecified order; with no active account it fails
with `NotAuthenticated` ("Not logged in"). -/
theorem list_tasks_spec (s : TodoApp) :
    (s.current_user = none → s.list_tasks = .error "Not logged in") ∧
    (∀ u, s.current_user = some u →
      ∃ l, s.list_tasks = .ok l ∧
        ∀ t, t ∈ l ↔ ((∃ k, (k, t) ∈ s.tasks) ∧ t.user_id = u)) := by
  constructor
  · intro h
    simp [TodoApp.list_tasks, h]
  · intro u h
    refine ⟨(s.tasks.map Prod.snd).filter (fun t => decide (t.user_id = u)),
      by simp [TodoApp.list_tasks, h], ?_⟩
    intro t
    simp only [List.mem_filter, List.mem_map, decide_eq_true_eq]
    constructor
    · rintro ⟨⟨p, hp, hpt⟩, howner⟩
      exact ⟨⟨p.1, by rw [← hpt]; exact hp⟩, howner⟩
    · rintro ⟨⟨k, hk⟩, howner⟩
      exact ⟨⟨(k, t), hk, rfl⟩, howner⟩

/-- Witness for `list_tasks_spec`: the unauthenticated branch at the fresh
state, and the membership characterization at `listState`. -/
theorem list_tasks_spec_witness :
    TodoApp.list_tasks ⟨[], [], none, 1⟩ = Except.error "Not logged in" ∧
    listState.list_tasks = Except.ok [taskA] := by
  refine ⟨(list_tasks_spec ⟨[], [], none, 1⟩).1 rfl, ?_⟩
  rfl

/-! ### Claim C2: not-found versus not-authorized -/

/-- Claim C2: under an active account, each of `complete_task`, `edit_task`
and `delete_task` fails with `TaskNotFound` ("Task not found") when the id is
absent, and with `NotAuthorized` ("Not authorized to modify this task" /
"Not authorized to delete this task") when the task exists but is owned by a
different account; the two failures are distinct error values, and on either
failure the whole state — in particular the task mapping — is unchanged. -/
theorem task_ops_error_spec (s : TodoApp) (u : String) (id : Nat)
    (title description : String) (hu : s.current_user = some u) :
    (lookupKey id s.tasks = none →
      s.complete_task id = (.error "Task not found", s) ∧
      s.edit_task id title description = (.error "Task not found", s) ∧
      s.delete_task id = (.error "Task not found", s)) ∧
    (∀ t, lookupKey id s.tasks = some t → t.user_id ≠ u →
      s.complete_task id = (.error "Not authorized to modify this task", s) ∧
      s.edit_task id title description
        = (.error "Not authorized to modify this task", s) ∧
      s.delete_task id = (.error "Not authorized to delete this task", s)) ∧
    ("Task not found" ≠ "Not authorized to modify this task" ∧
      "Task not found" ≠ "Not authorized to delete this task") := by
  refine ⟨?_, ?_, by decide, by decide⟩
  · intro h
    refine ⟨?_, ?_, ?_⟩ <;>
      simp [TodoApp.complete_task, TodoApp.edit_task, TodoApp.delete_task, hu, h]
  · intro t ht hown
    refine ⟨?_, ?_, ?_⟩ <;>
      simp [TodoApp.complete_task, TodoApp.edit_task, TodoApp.delete_task,
        hu, ht, hown]

/-- Witness for `task_ops_error_spec` at `authState`: id 99 is absent, id 1
belongs to "alice" while "bob" is active. -/
theorem task_ops_error_spec_witness :
    authState.complete_task 99 = (.error "Task not found", authState) ∧
    authState.delete_task 1
      = (.error "Not authorized to delete this task", authState) :=
  ⟨((task_ops_error_spec authState "bob" 99 "x" "y" rfl).1 (by decide)).1,
   ((task_ops_error_spec authState "bob" 1 "x" "y" rfl).2.1 taskA rfl
      (by decide)).2.2⟩

/-! ### Claim C7: edit frame conditions -/

/-- Claim C7: a successful `edit_task` on an owned task replaces exactly the
task's `title` and `description`, leaves its `completed`, `created_at`,
`owner` and `id` fields unchanged, leaves every other task unchanged, and
leaves the rest of the state untouched. -/
theorem edit_task_spec (s : TodoApp) (u : String) (id : Nat)
    (title description : String) (t : Task)
    (hu : s.current_user = some u) (ht : lookupKey id s.tasks = some t)
    (hown : t.user_id = u) :
    (s.edit_task id title description).1 = .ok () ∧
    lookupKey id (s.edit_task id title description).2.tasks
      = some ⟨t.id, title, description, t.completed, t.created_at, t.user_id⟩ ∧
    (∀ k, k ≠ id →
      lookupKey k (s.edit_task id title description).2.tasks
        = lookupKey k s.tasks) ∧
    (s.edit_task id title description).2.users = s.users ∧
    (s.edit_task id title description).2.current_user = s.current_user ∧
    (s.edit_task id title description).2.next_task_id = s.next_task_id := by
  have hcond : ¬ t.user_id ≠ u := by simp [hown]
  simp only [TodoApp.edit_task, hu, ht, if_neg hcond]
  refine ⟨by trivial, ?_, ?_, by trivial, by trivial, by trivial⟩
  · simpa using lookupKey_update_self
      (fun tt => { tt with title := title, description := description }) ht
  · intro k hk
    exact lookupKey_update_ne _ _ hk

/-- Witness for `edit_task_spec` at `editState`: editing task 1 changes only
its title and description and leaves task 2 alone. -/
theorem edit_task_spec_witness :
    (editState.edit_task 1 "new title" "new body").1 = .ok () ∧
    lookupKey 1 (editState.edit_task 1 "new title" "new body").2.tasks
      = some ⟨1, "new title", "new body", false, ⟨10, 0⟩, "alice"⟩ ∧
    lookupKey 2 (editState.edit_task 1 "new title" "new body").2.tasks
      = lookupKey 2 editState.tasks := by
  have h := edit_task_spec editState "alice" 1 "new title" "new body" taskA
    rfl rfl rfl
  exact ⟨h.1, h.2.1, h.2.2.1 2 (by decide)⟩

/-! ### Claim C1: add -/

/-- Claim C1 counterexample: `add_task` does not return the new id to the
caller.  Its result type in the source is `Result<(), &'static str>`: two
authenticated states allocating different ids (1 and 5) both return the
identical value `Ok(())`, so the caller-visible result carries no `TaskId`. -/
theorem add_task_no_id_cex :
    (addStateA.add_task "t" "d" ⟨0, 0⟩).1 = Except.ok () ∧
    (addStateA.add_task "t" "d" ⟨0, 0⟩).1 = (addStateB.add_task "t" "d" ⟨0, 0⟩).1 ∧
    (addStateA.add_task "t" "d" ⟨0, 0⟩).2.next_task_id
      ≠ (addStateB.add_task "t" "d" ⟨0, 0⟩).2.next_task_id :=
  ⟨rfl, rfl, by decide⟩

/-- Claim C1 (amended): with an authenticated active account, `add_task`
allocates `id = next_task_id`, increments the counter (the `u32` increment of
the source, wrapping at `U32`), inserts the new task with owner = active
account, `completed = false` and the given timestamp, and returns `Ok(())` —
a unit success marker, not the new id; with no active account it fails with
`NotAuthenticated` ("Not logged in") and changes nothing. -/
theorem add_task_spec (s : TodoApp) (title description : String) (now : DateTime) :
    (s.current_user = none →
      s.add_task title description now = (.error "Not logged in", s)) ∧
    (∀ u, s.current_user = some u →
      (s.add_task title description now).1 = .ok () ∧
      lookupKey s.next_task_id (s.add_task title description now).2.tasks
        = some ⟨s.next_task_id, title, description, false, now, u⟩ ∧
      (∀ k, k ≠ s.next_task_id →
        lookupKey k (s.add_task title description now).2.tasks
          = lookupKey k s.tasks) ∧
      (s.add_task title description now).2.next_task_id
        = (s.next_task_id + 1) % U32 ∧
      (s.add_task title description now).2.users = s.users ∧
      (s.add_task title description now).2.current_user = s.current_user) := by
  constructor
  · intro h
    simp [TodoApp.add_task, h]
  · intro u h
    simp only [TodoApp.add_task, h]
    refine ⟨by trivial, ?_, ?_, by trivial, by trivial, by trivial⟩
    · exact lookupKey_insert_self _ _ _
    · intro k hk
      exact lookupKey_insert_ne _ _ hk

/-- Witness for `add_task_spec` at `addStateA` (counter at 1, "a" active). -/
theorem add_task_spec_witness :
    (addStateA.add_task "T" "D" ⟨7, 5⟩).1 = .ok () ∧
    lookupKey 1 (addStateA.add_task "T" "D" ⟨7, 5⟩).2.tasks
      = some ⟨1, "T", "D", false, ⟨7, 5⟩, "a"⟩ ∧
    (addStateA.add_task "T" "D" ⟨7, 5⟩).2.next_task_id = 2 := by
  have h := (add_task_spec addStateA "T" "D" ⟨7, 5⟩).2 "a" rfl
  exact ⟨h.1, h.2.1, h.2.2.2.1.trans (by decide)⟩

/-! ### Claim C8: startup loading -/

/-- Claim C8: at startup an absent snapshot file is success with an empty
mapping for both `load_tasks` and `load_users` (the fresh state's mappings
are empty), a file that exists but fails to parse is a fatal startup error
(the modelled `unwrap` panic), and after a successful task load
`next_task_id` is recomputed from the loaded ids:
`keys().max().map_or(1, |max| max + 1)`, strictly above every loaded id
whenever the `u32` addition does not overflow. -/
theorem startup_load_spec :
    (startup none none = .ok TodoApp.new ∧ TodoApp.new.tasks = [] ∧
      TodoApp.new.users = []) ∧
    (∀ uf, startup (some .garbage) uf = .error "deserialization error") ∧
    (startup none (some .garbage) = .error "deserialization error") ∧
    (∀ m, startup (some (.parsable m)) (some .garbage)
      = .error "deserialization error") ∧
    (∀ m s2, TodoApp.new.load_tasks (some (.parsable m)) = .ok s2 →
      s2.tasks = m ∧
      (m = [] → s2.next_task_id = 1) ∧
      (∀ mx, keysMax m = some mx → s2.next_task_id = (mx + 1) % U32) ∧
      ((∀ q ∈ m, q.1 + 1 < U32) → ∀ q ∈ m, q.1 < s2.next_task_id)) := by
  refine ⟨⟨rfl, rfl, rfl⟩, fun uf => rfl, rfl, fun m => rfl, ?_⟩
  intro m s2 h
  simp only [TodoApp.load_tasks] at h
  injection h with h
  subst h
  refine ⟨rfl, ?_, ?_, ?_⟩
  · intro hm
    subst hm
    rfl
  · intro mx hmx
    simp [hmx]
  · intro hb q hq
    cases hmx : keysMax m with
    | none =>
        rw [(keysMax_eq_none_iff m).mp hmx] at hq
        simp at hq
    | some mx =>
        have := keysMax_next_gt hmx hb q hq
        simpa [hmx] using this

/-- Witness for `startup_load_spec`: a garbled tasks file aborts startup, and
loading `loadSnapshot` (keys 3 and 7) recomputes the counter as 8. -/
theorem startup_load_spec_witness :
    startup (some TasksFile.garbage) none = Except.error "deserialization error" ∧
    loadedState.tasks = loadSnapshot ∧
    loadedState.next_task_id = (7 + 1) % U32 := by
  have h := startup_load_spec
  exact ⟨h.2.1 none, (h.2.2.2.2 loadSnapshot loadedState rfl).1,
    (h.2.2.2.2 loadSnapshot loadedState rfl).2.2.1 7 rfl⟩

/-! ### Claim C3: save/load round trip -/

/-- Claim C3 counterexample, two independent failures of the unqualified
round-trip claim.  First, timestamp truncation: at the mapping
`{1 ↦ fracTask}`, whose task was created in-process with a sub-second
`created_at` (as `Utc::now()` produces), reloading the saved snapshot yields
the task with `created_at` truncated to whole seconds by `ts_seconds` — a
task different from the original, so the reloaded mapping is not
element-for-element equal to it.  Second, counter overflow: at the mapping
`{4294967295 ↦ task}` — `4294967295 = u32::MAX` is a representable id — the
recomputed `next_task_id = max + 1` wraps to `0` in `u32`, so the counter
equals neither `1 + max id` nor is it strictly greater than the reloaded id
(a debug build panics on the same overflowing addition). -/
theorem save_load_roundtrip_cex :
    TodoApp.load_tasks TodoApp.new (some fracState.save_tasks)
      = .ok ⟨[(1, ⟨1, "t", "d", false, ⟨10, 0⟩, "alice"⟩)], [], none, 2⟩ ∧
    (⟨1, "t", "d", false, ⟨10, 0⟩, "alice"⟩ : Task) ≠ fracTask ∧
    TodoApp.load_tasks TodoApp.new (some maxState.save_tasks)
      = .ok ⟨[(4294967295, maxTask)], [], none, 0⟩ ∧
    ¬ ((0 : Nat) = 4294967295 + 1) ∧ ¬ ((4294967295 : Nat) < 0) :=
  ⟨rfl, by decide, rfl, by decide, by decide⟩

/-- Claim C3 (amended): for every task mapping whose `created_at` timestamps
are whole seconds (zero sub-second component — true of every mapping
reloaded from disk, but not of tasks created in-process by `Utc::now()`,
whose sub-second component the `ts_seconds` serialization truncates on save)
and all of whose ids are below `u32::MAX` (so that `max + 1` does not
overflow), saving with `save_tasks` and reloading with `load_tasks` yields
an element-for-element equal mapping, and the reloaded `next_task_id` equals
`1 + max id` (`1` when the mapping is empty), hence is strictly greater than
every id in the reloaded set.  See `save_load_roundtrip_cex` for both
failure modes of the unqualified claim. -/
theorem save_load_roundtrip (s s0 : TodoApp)
    (hb : ∀ p ∈ s.tasks, p.1 + 1 < U32)
    (hn : ∀ p ∈ s.tasks, p.2.created_at.nanos = 0) :
    ∀ s2, TodoApp.load_tasks s0 (some s.save_tasks) = .ok s2 →
      s2.tasks = s.tasks ∧
      (s.tasks = [] → s2.next_task_id = 1) ∧
      (∀ mx, keysMax s.tasks = some mx → s2.next_task_id = mx + 1) ∧
      (∀ p ∈ s2.tasks, p.1 < s2.next_task_id) := by
  intro s2 h
  rw [load_save_eq] at h
  injection h with h
  subst h
  have hmap := map_store_eq_self hn
  refine ⟨hmap, ?_, ?_, ?_⟩
  · intro hm
    simp [hm, keysMax]
  · intro mx hmx
    rcases keysMax_mem hmx with ⟨p, hp, hpeq⟩
    have hlt : mx + 1 < U32 := hpeq ▸ hb p hp
    simp [hmx, Nat.mod_eq_of_lt hlt]
  · intro p hp
    rw [hmap] at hp
    cases hmx : keysMax s.tasks with
    | none =>
        rw [(keysMax_eq_none_iff s.tasks).mp hmx] at hp
        simp at hp
    | some mx =>
        have := keysMax_next_gt hmx hb p hp
        simpa [hmx] using this

/-- Witness for `save_load_roundtrip`: saving `rtState` (task keys 3 and 7,
whole-second timestamps) and reloading into a fresh `TodoApp` reproduces the
mapping and sets the counter to 8, above both keys. -/
theorem save_load_roundtrip_witness :
    loadedState.tasks = rtState.tasks ∧
    loadedState.next_task_id = 7 + 1 ∧
    (3 : Nat) < loadedState.next_task_id := by
  have h := save_load_roundtrip rtState TodoApp.new (by decide) (by decide)
    loadedState rfl
  exact ⟨h.1, h.2.2.1 7 rfl, h.2.2.2 (3, taskA) (by decide)⟩

/-! ### Claim C9: task-map invariant -/

/-- Claim C9 counterexample: the invariant "every id in the mapping is
strictly below `next_task_id`" is not preserved by `add_task` at the `u32`
boundary: from the invariant-satisfying state with an empty mapping and the
counter at `u32::MAX = 4294967295`, `add_task` inserts a task under key
`4294967295` and wraps the counter to `0` (a debug build instead panics on
the overflowing `+= 1`), so the new state violates the invariant. -/
theorem task_invariant_cex :
    TaskInv invState ∧ ¬ TaskInv (invState.add_task "t" "d" ⟨0, 0⟩).2 := by
  decide

/-- Claim C9 (amended): the invariant `TaskInv` — every entry's key equals
its task's `id` field and every key is strictly below the `u32` counter
`next_task_id` — is preserved by `register`, `login`, `complete_task`,
`edit_task` and `delete_task` unconditionally, by `add_task` whenever the
counter increment does not overflow `u32` (see `task_invariant_cex` for the
boundary), and by `load_tasks` both on an absent file and when reloading a
snapshot saved from a state satisfying the invariant; a newly allocated id
therefore never collides with an existing task.  (`list_tasks` takes the
state immutably and is covered by its type.) -/
theorem task_invariant_preserved (s : TodoApp) (hInv : TaskInv s) :
    (∀ u p, TaskInv (s.register u p).2) ∧
    (∀ u p, TaskInv (s.login u p).2) ∧
    (s.next_task_id + 1 < U32 → ∀ t d n, TaskInv (s.add_task t d n).2) ∧
    (∀ id, TaskInv (s.complete_task id).2) ∧
    (∀ id t d, TaskInv (s.edit_task id t d).2) ∧
    (∀ id, TaskInv (s.delete_task id).2) ∧
    (∀ s2, s.load_tasks none = .ok s2 → TaskInv s2) ∧
    (∀ s1 s2, TaskInv s1 → s.load_tasks (some s1.save_tasks) = .ok s2 →
      TaskInv s2) := by
  refine ⟨?_, ?_, ?_, ?_, ?_, ?_, ?_, ?_⟩
  · intro u p
    refine TaskInv_of_eq hInv ?_ ?_ <;>
      · simp only [TodoApp.register]
        split <;> rfl
  · intro u p
    refine TaskInv_of_eq hInv ?_ ?_ <;>
      · simp only [TodoApp.login]
        split <;> first
        | rfl
        | split <;> rfl
  · intro hof t d n
    cases hcu : s.current_user with
    | none => simpa [TodoApp.add_task, hcu] using hInv
    | some u =>
        simp only [TodoApp.add_task, hcu]
        refine ⟨?_, ?_⟩
        · show (s.next_task_id + 1) % U32 < U32
          rw [Nat.mod_eq_of_lt hof]
          exact hof
        · intro p hp
          rw [Nat.mod_eq_of_lt hof]
          rcases List.mem_cons.mp hp with hp | hp
          · subst hp
            exact ⟨rfl, Nat.lt_succ_self _⟩
          · rcases hInv.2 p (mem_eraseKey hp) with ⟨hid, hlt⟩
            exact ⟨hid, Nat.lt_succ_of_lt hlt⟩
  · intro id
    cases hcu : s.current_user with
    | none => simpa [TodoApp.complete_task, hcu] using hInv
    | some u =>
        cases hlk : lookupKey id s.tasks with
        | none => simpa [TodoApp.complete_task, hcu, hlk] using hInv
        | some t =>
            by_cases hw : t.user_id ≠ u
            · simpa [TodoApp.complete_task, hcu, hlk, hw] using hInv
            · simp only [TodoApp.complete_task, hcu, hlk, if_neg hw]
              exact TaskInv_updateKey hInv id _ (fun _ => rfl)
  · intro id t d
    cases hcu : s.current_user with
    | none => simpa [TodoApp.edit_task, hcu] using hInv
    | some u =>
        cases hlk : lookupKey id s.tasks with
        | none => simpa [TodoApp.edit_task, hcu, hlk] using hInv
        | some t0 =>
            by_cases hw : t0.user_id ≠ u
            · simpa [TodoApp.edit_task, hcu, hlk, hw] using hInv
            · simp only [TodoApp.edit_task, hcu, hlk, if_neg hw]
              exact TaskInv_updateKey hInv id _ (fun _ => rfl)
  · intro id
    cases hcu : s.current_user with
    | none => simpa [TodoApp.delete_task, hcu] using hInv
    | some u =>
        cases hlk : lookupKey id s.tasks with
        | none => simpa [TodoApp.delete_task, hcu, hlk] using hInv
        | some t =>
            by_cases hw : t.user_id ≠ u
            · simpa [TodoApp.delete_task, hcu, hlk, hw] using hInv
            · simp only [TodoApp.delete_task, hcu, hlk, if_neg hw]
              exact TaskInv_eraseKey hInv id
  · intro s2 h
    simp only [TodoApp.load_tasks] at h
    injection h with h
    subst h
    exact hInv
  · intro s1 s2 hInv1 h
    rw [load_save_eq] at h
    injection h with h
    subst h
    have hb : ∀ q ∈ s1.tasks, q.1 + 1 < U32 := by
      intro q hq
      exact Nat.lt_of_le_of_lt (Nat.succ_le_of_lt (hInv1.2 q hq).2) hInv1.1
    constructor
    · show (match keysMax s1.tasks with
        | none => 1
        | some mx => (mx + 1) % U32) < U32
      cases hmx : keysMax s1.tasks with
      | none => decide
      | some mx =>
          rcases keysMax_mem hmx with ⟨p, hp, hpeq⟩
          show (mx + 1) % U32 < U32
          rw [Nat.mod_eq_of_lt (hpeq ▸ hb p hp)]
          exact hpeq ▸ hb p hp
    · intro q hq
      rcases List.mem_map.mp hq with ⟨p, hp, hpq⟩
      subst hpq
      refine ⟨(hInv1.2 p hp).1, ?_⟩
      cases hmx : keysMax s1.tasks with
      | none =>
          rw [(keysMax_eq_none_iff s1.tasks).mp hmx] at hp
          simp at hp
      | some mx =>
          have := keysMax_next_gt hmx hb p hp
          simpa [hmx] using this

/-- Witness for `task_invariant_preserved` at `listState` (two tasks, keys 1
and 2, counter at 3). -/
theorem task_invariant_preserved_witness :
    TaskInv (listState.add_task "x" "y" ⟨0, 0⟩).2 ∧
    TaskInv (listState.delete_task 1).2 := by
  have h := task_invariant_preserved listState (by decide)
  exact ⟨h.2.2.1 (by decide) "x" "y" ⟨0, 0⟩, h.2.2.2.2.2.1 1⟩

end Todo
